import Mathlib

/-!
Verification development for the sphere ray tracer in `raytracer.py`.

The program is embedded shallowly over exact rationals (`ℚ`): every numpy
batch operation in the source is element-wise, so the embedding models the
per-ray (per-pixel) scalar semantics of the same formulas.  `np.sqrt` is
modelled by `ratSqrt`, an executable integer Newton iteration that is exact
on perfect squares; theorems that depend on exactness of a square root state
that exactness as an explicit hypothesis and witness it on concrete inputs.
Fallible operations (`functools.reduce` over an empty list, `scene.index`
lookups) are modelled with `Option`.
-/

attribute [local semireducible] Rat.add Rat.mul Rat.inv Rat.sub Rat.ofScientific

/-- Newton iteration step for integer square roots.  The first argument is the
radicand, then explicit fuel, then the current guess; the iteration stops as
soon as the guess no longer decreases. -/
def isqrtIter (n : ℕ) : ℕ → ℕ → ℕ
  | 0, guess => guess
  | fuel + 1, guess =>
    let next := (guess + n / guess) / 2
    if next < guess then isqrtIter n fuel next else guess

/-- Integer square root by Newton iteration (fuel 120 suffices for every
radicand below `2 ^ 120`, far beyond any value arising in this development).
Exact on perfect squares. -/
def natSqrt (n : ℕ) : ℕ := if n ≤ 1 then n else isqrtIter n 120 (n / 2)

/-- Model of `np.sqrt` on rationals: exact on perfect squares (numerator and
denominator of the reduced fraction both perfect squares), an integer-Newton
approximation elsewhere.  Nonpositive inputs give 0 (the source only applies
`np.sqrt` to nonnegative data). -/
def ratSqrt (q : ℚ) : ℚ :=
  if q ≤ 0 then 0 else (natSqrt q.num.toNat : ℚ) / (natSqrt q.den : ℚ)

/-- `Vector3D` (lines 7–31): a triple of rationals; a numpy batch acts
element-wise, so one ray's components suffice. -/
structure Vector3D where
  x : ℚ
  y : ℚ
  z : ℚ
deriving DecidableEq

/-- `__mul__` (lines 11–12): scalar multiplication. -/
def Vector3D.mul (v : Vector3D) (k : ℚ) : Vector3D := ⟨v.x * k, v.y * k, v.z * k⟩

/-- `__add__` (lines 14–15). -/
instance : Add Vector3D := ⟨fun a b => ⟨a.x + b.x, a.y + b.y, a.z + b.z⟩⟩

/-- `__sub__` (lines 17–18). -/
instance : Sub Vector3D := ⟨fun a b => ⟨a.x - b.x, a.y - b.y, a.z - b.z⟩⟩

/-- `dot` (lines 20–21). -/
def Vector3D.dot (a b : Vector3D) : ℚ := a.x * b.x + a.y * b.y + a.z * b.z

/-- `__abs__` (lines 23–24): the squared norm `dot self self`. -/
def Vector3D.abs (v : Vector3D) : ℚ := v.dot v

/-- `norm` (lines 26–28): divide by `np.sqrt(abs(self))`, substituting
divisor 1 when the computed magnitude is exactly 0. -/
def Vector3D.norm (v : Vector3D) : Vector3D :=
  let mag := ratSqrt v.abs
  v.mul (1 / (if mag = 0 then 1 else mag))

/-- Line 37. -/
def LightPosition : Vector3D := ⟨5, 5, -10⟩

/-- Line 38. -/
def CameraPosition : Vector3D := ⟨0, 0.35, -1⟩

/-- Line 39: the "no hit" sentinel distance `1.0e39`. -/
def FAR_AWAY : ℚ := 10 ^ 39

/-- A numpy boolean mask used as a 0/1 factor. -/
def boolQ (b : Bool) : ℚ := if b then 1 else 0

/-- A comparison result used as a 0/1 factor (numpy multiplies booleans as
0/1 scalars). -/
def propQ (p : Prop) [Decidable p] : ℚ := if p then 1 else 0

/-- `Sphere.__init__` (lines 55–60); `checkered` records whether the object
was constructed as a `CheckeredSphere` (line 107). -/
structure Sphere where
  center : Vector3D
  radius : ℚ
  diffuse_color : Vector3D
  mirror : ℚ := 0.7
  checkered : Bool := false
deriving DecidableEq

/-- Discriminant of the ray-sphere quadratic (lines 63–65). -/
def Sphere.disc (s : Sphere) (ray_origin ray_direction : Vector3D) : ℚ :=
  let b := 2 * ray_direction.dot (ray_origin - s.center)
  let c := s.center.abs + ray_origin.abs - 2 * s.center.dot ray_origin - s.radius * s.radius
  b ^ 2 - 4 * c

/-- Selected root `h` (lines 66–69): prefer `h0` when `0 < h0 < h1`, else `h1`. -/
def Sphere.hsel (s : Sphere) (ray_origin ray_direction : Vector3D) : ℚ :=
  let b := 2 * ray_direction.dot (ray_origin - s.center)
  let sq := ratSqrt (max 0 (s.disc ray_origin ray_direction))
  let h0 := (-b - sq) / 2
  let h1 := (-b + sq) / 2
  if 0 < h0 ∧ h0 < h1 then h0 else h1

/-- `Sphere.intersect` (lines 62–72): the selected root where
`disc > 0 ∧ h > 0`, the sentinel `FAR_AWAY` otherwise. -/
def Sphere.intersect (s : Sphere) (ray_origin ray_direction : Vector3D) : ℚ :=
  if 0 < s.disc ray_origin ray_direction ∧ 0 < s.hsel ray_origin ray_direction then
    s.hsel ray_origin ray_direction
  else FAR_AWAY

/-- `Sphere.get_diffuse_color` (lines 74–75): returns the stored
`diffuse_color` attribute.  Because `Sphere.__init__` assigns the instance
attribute `diffuse_color`, this is what runs for `CheckeredSphere` objects as
well: the instance attribute shadows the `CheckeredSphere.diffuse_color`
method, which is therefore never consulted. -/
def Sphere.get_diffuse_color (s : Sphere) (intersection_point : Vector3D) : Vector3D :=
  s.diffuse_color

/-- numpy `astype(int)`: truncation toward zero (computed on the reduced
numerator and denominator by natural division). -/
def npTrunc (q : ℚ) : ℤ :=
  if 0 ≤ q.num then (q.num.toNat / q.den : ℕ) else -((((-q.num).toNat) / q.den : ℕ) : ℤ)

/-- The `CheckeredSphere.diffuse_color` method body (lines 107–110): base
color where the parities of `astype(int)(2x) % 2` and `astype(int)(2z) % 2`
agree, black otherwise.  In the Python source this method is shadowed by the
instance attribute of the same name and is dead code. -/
def CheckeredSphere.diffuse_color (s : Sphere) (intersection_point : Vector3D) : Vector3D :=
  s.diffuse_color.mul
    (propQ (npTrunc (intersection_point.x * 2) % 2 = npTrunc (intersection_point.z * 2) % 2))

/-- `functools.reduce(np.minimum, ·)` (lines 47 and 86): per-ray minimum of a
list of distances; raises on an empty list, modelled as `none`. -/
def reduceMin : List ℚ → Option ℚ
  | [] => none
  | x :: xs => some (xs.foldl min x)

/-- Line 78: the intersection point `ray_origin + ray_direction * distance`. -/
def rayPoint (ray_origin ray_direction : Vector3D) (distance : ℚ) : Vector3D :=
  ray_origin + ray_direction.mul distance

/-- Line 79: outward unit normal (scaled by `1 / radius`). -/
def Sphere.normalAt (s : Sphere) (ray_origin ray_direction : Vector3D) (distance : ℚ) : Vector3D :=
  (rayPoint ray_origin ray_direction distance - s.center).mul (1 / s.radius)

/-- Line 80: normalized direction from a point toward the light. -/
def toLightDir (p : Vector3D) : Vector3D := (LightPosition - p).norm

/-- Line 82: the point nudged by `1e-4` along the normal. -/
def Sphere.nudgedPoint (s : Sphere) (ray_origin ray_direction : Vector3D) (distance : ℚ) : Vector3D :=
  rayPoint ray_origin ray_direction distance
    + (s.normalAt ray_origin ray_direction distance).mul (1 / 10000)

/-- Line 85: every sphere's intersect distance for the shadow ray cast from
the nudged point toward the light. -/
def Sphere.shadowDistances (s : Sphere) (ray_origin ray_direction : Vector3D) (distance : ℚ)
    (scene : List Sphere) : List ℚ :=
  scene.map fun t =>
    t.intersect (s.nudgedPoint ray_origin ray_direction distance)
      (toLightDir (rayPoint ray_origin ray_direction distance))

/-- Lines 86–87: `see_light`, true exactly when this sphere's own entry of
the shadow-distance list (located by its index in the scene list, as
`scene.index(self)` does) equals the scene-wide minimum.  `none` models the
exceptions raised on an empty scene or a failed index lookup. -/
def Sphere.litMask (s : Sphere) (idx : ℕ) (ray_origin ray_direction : Vector3D) (distance : ℚ)
    (scene : List Sphere) : Option Bool :=
  match reduceMin (s.shadowDistances ray_origin ray_direction distance scene),
      (s.shadowDistances ray_origin ray_direction distance scene)[idx]? with
  | some light_nearest, some self_distance => some (decide (self_distance = light_nearest))
  | _, _ => none

/-- Line 98: the reflected ray direction. -/
def Sphere.reflectedDir (s : Sphere) (ray_origin ray_direction : Vector3D) (distance : ℚ) : Vector3D :=
  (ray_direction - ((s.normalAt ray_origin ray_direction distance).mul 2).mul
      (ray_direction.dot (s.normalAt ray_origin ray_direction distance))).norm

/-- Line 90: the unconditional ambient term. -/
def ambientColor : Vector3D := ⟨0.05, 0.05, 0.05⟩

mutual

/-- `raytrace` (lines 41–53): distances for every sphere, their pairwise
minimum, then per-sphere shading masked by `(nearest != FAR_AWAY)` and
`(distance == nearest)` accumulated with `+=`. -/
def raytrace (ray_origin ray_direction : Vector3D) (scene : List Sphere) (bounce : ℕ) :
    Option Vector3D :=
  (reduceMin (scene.map fun s => s.intersect ray_origin ray_direction)).bind fun nearest =>
    raytraceAccum ray_origin ray_direction scene nearest bounce (Vector3D.mk 0 0 0) scene 0
termination_by (2 - bounce, 2, 0)

/-- The accumulation loop of `raytrace` (lines 48–52): the list argument is
the scene suffix still to be processed and the final argument the index of
its head in `scene`. -/
def raytraceAccum (ray_origin ray_direction : Vector3D) (scene : List Sphere) (nearest : ℚ)
    (bounce : ℕ) (color : Vector3D) : List Sphere → ℕ → Option Vector3D
  | [], _ => some color
  | sphere :: rest2, i =>
    (Sphere.light sphere i ray_origin ray_direction
        (sphere.intersect ray_origin ray_direction) scene bounce).bind fun c =>
      raytraceAccum ray_origin ray_direction scene nearest bounce
        (color + (c.mul (propQ (nearest ≠ FAR_AWAY))).mul
          (propQ (sphere.intersect ray_origin ray_direction = nearest)))
        rest2 (i + 1)
termination_by rest i => (2 - bounce, 1, rest.length)

/-- `Sphere.light` (lines 77–105): ambient, Lambert diffuse masked by the lit
mask, a recursive reflection trace when `bounce < 2`, and the Blinn-Phong
specular term masked by the lit mask.  `idx` is this sphere's index in the
scene list (`scene.index(self)`). -/
def Sphere.light (s : Sphere) (idx : ℕ) (ray_origin ray_direction : Vector3D) (distance : ℚ)
    (scene : List Sphere) (bounce : ℕ) : Option Vector3D :=
  let intersection_point := rayPoint ray_origin ray_direction distance
  let normal := s.normalAt ray_origin ray_direction distance
  let to_light := toLightDir intersection_point
  let to_observer := (CameraPosition - intersection_point).norm
  (s.litMask idx ray_origin ray_direction distance scene).bind fun see_light =>
    let lambert_value := max (normal.dot to_light) 0
    let color1 := ambientColor
      + ((s.get_diffuse_color intersection_point).mul lambert_value).mul (boolQ see_light)
    let phong := normal.dot ((to_light + to_observer).norm)
    let specular :=
      ((Vector3D.mk 1 1 1).mul (min (max phong 0) 1 ^ (50 : ℕ))).mul (boolQ see_light)
    if h : bounce < 2 then
      (raytrace (s.nudgedPoint ray_origin ray_direction distance)
          (s.reflectedDir ray_origin ray_direction distance) scene (bounce + 1)).map fun r =>
        color1 + r.mul s.mirror + specular
    else
      some (color1 + specular)
termination_by (2 - bounce, 0, 0)

end

mutual

/-- Depth of reflective recursion triggered by one `raytrace` call: the
maximum, over the shading calls the resolver makes, of the nesting depth of
recursive `raytrace` invocations.  Mirrors the control flow of lines 41–53
and 96–99 exactly (the recursive call happens whenever `bounce < 2`,
independent of the mirror coefficient). -/
def raytraceDepth (ray_origin ray_direction : Vector3D) (scene : List Sphere) (bounce : ℕ) : ℕ :=
  match reduceMin (scene.map fun s => s.intersect ray_origin ray_direction) with
  | none => 0
  | some _ => depthAccum ray_origin ray_direction scene bounce scene
termination_by (2 - bounce, 2, 0)

/-- Maximum reflective recursion depth over the spheres still to be shaded. -/
def depthAccum (ray_origin ray_direction : Vector3D) (scene : List Sphere) (bounce : ℕ) :
    List Sphere → ℕ
  | [] => 0
  | sphere :: rest2 =>
    max (lightDepth sphere ray_origin ray_direction
          (sphere.intersect ray_origin ray_direction) scene bounce)
      (depthAccum ray_origin ray_direction scene bounce rest2)
termination_by rest => (2 - bounce, 1, rest.length)

/-- Reflective recursion depth of one `Sphere.light` call: lines 96–99 make
one recursive `raytrace` call exactly when `bounce < 2`. -/
def lightDepth (s : Sphere) (ray_origin ray_direction : Vector3D) (distance : ℚ)
    (scene : List Sphere) (bounce : ℕ) : ℕ :=
  if h : bounce < 2 then
    1 + raytraceDepth (s.nudgedPoint ray_origin ray_direction distance)
      (s.reflectedDir ray_origin ray_direction distance) scene (bounce + 1)
  else 0
termination_by (2 - bounce, 0, 0)

end

/-- Comparator for the corrected C7: `Sphere.light` with the reflection step
(lines 96–99) removed, so that a mirror-0 sphere's reflective contribution
can be compared against it. -/
def Sphere.lightNoReflect (s : Sphere) (idx : ℕ) (ray_origin ray_direction : Vector3D)
    (distance : ℚ) (scene : List Sphere) (bounce : ℕ) : Option Vector3D :=
  let intersection_point := rayPoint ray_origin ray_direction distance
  let normal := s.normalAt ray_origin ray_direction distance
  let to_light := toLightDir intersection_point
  let to_observer := (CameraPosition - intersection_point).norm
  (s.litMask idx ray_origin ray_direction distance scene).bind fun see_light =>
    let lambert_value := max (normal.dot to_light) 0
    let color1 := ambientColor
      + ((s.get_diffuse_color intersection_point).mul lambert_value).mul (boolQ see_light)
    let phong := normal.dot ((to_light + to_observer).norm)
    let specular :=
      ((Vector3D.mk 1 1 1).mul (min (max phong 0) 1 ^ (50 : ℕ))).mul (boolQ see_light)
    some (color1 + specular)

/-- Lines 113–118, the checkered floor of the scene. -/
def checkeredFloor : Sphere := ⟨⟨0, -99999.5, 0⟩, 99999, ⟨0.75, 0.75, 0.75⟩, 0.25, true⟩

/-- The scene list built at lines 113–118. -/
def scene_objects : List Sphere :=
  [⟨⟨0.75, 0.1, 1⟩, 0.6, ⟨0, 0, 1⟩, 0.7, false⟩,
   ⟨⟨-0.75, 0.1, 2.25⟩, 0.6, ⟨0.3, 0.123, 0.321⟩, 0.7, false⟩,
   ⟨⟨-2.75, 0.1, 3.5⟩, 0.6, ⟨1, 0.5, 0.25⟩, 0.7, false⟩,
   checkeredFloor]

/-- A concrete mirror-0 sphere used for witnesses. -/
def matteSphere : Sphere := ⟨⟨0, 0, 3⟩, 1, ⟨1, 0, 0⟩, 0, false⟩

/-- A concrete ray origin used for witnesses. -/
def origin0 : Vector3D := ⟨0, 0, 0⟩

/-- A concrete ray direction used for witnesses. -/
def dirZ : Vector3D := ⟨0, 0, 1⟩

theorem Vector3D.add_def (a b : Vector3D) :
    a + b = ⟨a.x + b.x, a.y + b.y, a.z + b.z⟩ := rfl

theorem Vector3D.sub_def (a b : Vector3D) :
    a - b = ⟨a.x - b.x, a.y - b.y, a.z - b.z⟩ := rfl

theorem Vector3D.mul_zero_eq (v : Vector3D) : v.mul 0 = ⟨0, 0, 0⟩ := by
  simp [Vector3D.mul]

theorem Vector3D.mul_one_eq (v : Vector3D) : v.mul 1 = v := by
  simp [Vector3D.mul]

theorem Vector3D.zero_mul_eq (k : ℚ) : (Vector3D.mk 0 0 0).mul k = ⟨0, 0, 0⟩ := by
  simp [Vector3D.mul]

theorem Vector3D.add_zero_eq (v : Vector3D) : v + ⟨0, 0, 0⟩ = v := by
  simp [Vector3D.add_def]

theorem Vector3D.zero_add_eq (v : Vector3D) : (⟨0, 0, 0⟩ : Vector3D) + v = v := by
  simp [Vector3D.add_def]

theorem Vector3D.abs_mul_eq (v : Vector3D) (k : ℚ) : (v.mul k).abs = v.abs * k ^ 2 := by
  simp only [Vector3D.mul, Vector3D.abs, Vector3D.dot]
  ring

theorem propQ_of_true {p : Prop} [Decidable p] (h : p) : propQ p = 1 := if_pos h

theorem propQ_of_false {p : Prop} [Decidable p] (h : ¬p) : propQ p = 0 := if_neg h

theorem foldl_min_le_init (l : List ℚ) (a : ℚ) : l.foldl min a ≤ a := by
  induction l generalizing a with
  | nil => simp
  | cons x xs ih => exact le_trans (ih (min a x)) (min_le_left a x)

theorem foldl_min_le_mem {x : ℚ} {l : List ℚ} (hx : x ∈ l) (a : ℚ) : l.foldl min a ≤ x := by
  induction l generalizing a with
  | nil => cases hx
  | cons y ys ih =>
    rcases List.mem_cons.mp hx with h | h
    · subst h
      exact le_trans (foldl_min_le_init ys (min a x)) (min_le_right a x)
    · exact ih h (min a y)

theorem reduceMin_le {l : List ℚ} {m : ℚ} (hm : reduceMin l = some m) : ∀ x ∈ l, m ≤ x := by
  match l with
  | [] => simp [reduceMin] at hm
  | y :: ys =>
    simp only [reduceMin, Option.some.injEq] at hm
    intro x hx
    rcases List.mem_cons.mp hx with h | h
    · subst h
      exact hm ▸ foldl_min_le_init ys x
    · exact hm ▸ foldl_min_le_mem h y

theorem reduceMin_isSome {l : List ℚ} (h : l ≠ []) : ∃ m, reduceMin l = some m := by
  cases l with
  | nil => exact absurd rfl h
  | cons x xs => exact ⟨xs.foldl min x, rfl⟩

theorem reduceMin_none {l : List ℚ} (h : reduceMin l = none) : l = [] := by
  cases l with
  | nil => rfl
  | cons x xs => simp [reduceMin] at h

theorem litMask_isSome (s : Sphere) (idx : ℕ) (o d : Vector3D) (dist : ℚ)
    (scene : List Sphere) (hne : scene ≠ []) (hidx : idx < scene.length) :
    ∃ b, s.litMask idx o d dist scene = some b := by
  have hlen : (s.shadowDistances o d dist scene).length = scene.length :=
    List.length_map _ _
  have hne2 : s.shadowDistances o d dist scene ≠ [] := by
    intro h
    exact hne (List.map_eq_nil_iff.mp h)
  obtain ⟨n, hn⟩ := reduceMin_isSome hne2
  obtain ⟨v, hv⟩ : ∃ v, (s.shadowDistances o d dist scene)[idx]? = some v := by
    rw [List.getElem?_eq_getElem (hlen ▸ hidx)]
    exact ⟨_, rfl⟩
  refine ⟨decide (v = n), ?_⟩
  rw [Sphere.litMask, hn, hv]

theorem litMask_some_ne_nil {s : Sphere} {idx : ℕ} {o d : Vector3D} {dist : ℚ}
    {scene : List Sphere} {b : Bool} (h : s.litMask idx o d dist scene = some b) :
    scene ≠ [] := by
  intro hnil
  subst hnil
  simp [Sphere.litMask, Sphere.shadowDistances, reduceMin] at h

theorem accumAndRay_of_light {bounce : ℕ}
    (hlight : ∀ (s : Sphere) (idx : ℕ) (o d : Vector3D) (dist : ℚ) (scene : List Sphere),
      scene ≠ [] → idx < scene.length →
      ∃ c, Sphere.light s idx o d dist scene bounce = some c) :
    (∀ (o d : Vector3D) (scene : List Sphere) (nearest : ℚ) (color : Vector3D)
        (rest : List Sphere) (i : ℕ), scene ≠ [] → i + rest.length ≤ scene.length →
        ∃ c, raytraceAccum o d scene nearest bounce color rest i = some c)
    ∧ (∀ (o d : Vector3D) (scene : List Sphere), scene ≠ [] →
        ∃ c, raytrace o d scene bounce = some c) := by
  have haccum : ∀ (o d : Vector3D) (scene : List Sphere) (nearest : ℚ)
      (rest : List Sphere) (color : Vector3D) (i : ℕ), scene ≠ [] →
      i + rest.length ≤ scene.length →
      ∃ c, raytraceAccum o d scene nearest bounce color rest i = some c := by
    intro o d scene nearest rest
    induction rest with
    | nil =>
      intro color i _ _
      exact ⟨color, by rw [raytraceAccum]⟩
    | cons sphere rest2 ihr =>
      intro color i hne hlen
      obtain ⟨c, hc⟩ := hlight sphere i o d (sphere.intersect o d) scene hne
        (by simp only [List.length_cons] at hlen; omega)
      obtain ⟨c2, hc2⟩ := ihr _ (i + 1) hne
        (by simp only [List.length_cons] at hlen; omega)
      rw [raytraceAccum, hc]
      simp only [Option.some_bind]
      exact ⟨c2, hc2⟩
  refine ⟨fun o d scene nearest color rest i hne hlen =>
    haccum o d scene nearest rest color i hne hlen, ?_⟩
  intro o d scene hne
  have hne2 : scene.map (fun s => s.intersect o d) ≠ [] := by
    intro h
    exact hne (List.map_eq_nil_iff.mp h)
  obtain ⟨m, hm⟩ := reduceMin_isSome hne2
  obtain ⟨c, hc⟩ := haccum o d scene m scene (Vector3D.mk 0 0 0) 0 hne (by omega)
  rw [raytrace, hm]
  simp only [Option.some_bind]
  exact ⟨c, hc⟩

theorem tracer_total : ∀ (n bounce : ℕ), 2 - bounce ≤ n →
    ∀ (s : Sphere) (idx : ℕ) (o d : Vector3D) (dist : ℚ) (scene : List Sphere),
      scene ≠ [] → idx < scene.length →
      ∃ c, Sphere.light s idx o d dist scene bounce = some c := by
  intro n
  induction n with
  | zero =>
    intro bounce hb s idx o d dist scene hne hidx
    have h2 : ¬ bounce < 2 := by omega
    obtain ⟨b, hbm⟩ := litMask_isSome s idx o d dist scene hne hidx
    rw [Sphere.light, hbm]
    simp only [Option.some_bind, dif_neg h2]
    exact ⟨_, rfl⟩
  | succ n ih =>
    intro bounce hb s idx o d dist scene hne hidx
    obtain ⟨b, hbm⟩ := litMask_isSome s idx o d dist scene hne hidx
    rw [Sphere.light, hbm]
    simp only [Option.some_bind]
    by_cases h2 : bounce < 2
    · obtain ⟨r, hr⟩ := (accumAndRay_of_light (ih (bounce + 1) (by omega))).2
        (s.nudgedPoint o d dist) (s.reflectedDir o d dist) scene hne
      simp only [dif_pos h2, hr, Option.map_some']
      exact ⟨_, rfl⟩
    · simp only [dif_neg h2]
      exact ⟨_, rfl⟩

theorem light_total (s : Sphere) (idx : ℕ) (o d : Vector3D) (dist : ℚ)
    (scene : List Sphere) (bounce : ℕ) (hne : scene ≠ []) (hidx : idx < scene.length) :
    ∃ c, Sphere.light s idx o d dist scene bounce = some c :=
  tracer_total (2 - bounce) bounce le_rfl s idx o d dist scene hne hidx

theorem raytrace_total (o d : Vector3D) (scene : List Sphere) (bounce : ℕ)
    (hne : scene ≠ []) : ∃ c, raytrace o d scene bounce = some c :=
  (accumAndRay_of_light (tracer_total (2 - bounce) bounce le_rfl)).2 o d scene hne

theorem depth_bound : ∀ (n bounce : ℕ), 2 - bounce ≤ n →
    (∀ (s : Sphere) (o d : Vector3D) (dist : ℚ) (scene : List Sphere),
        lightDepth s o d dist scene bounce ≤ 2 - bounce)
    ∧ (∀ (o d : Vector3D) (scene : List Sphere) (rest : List Sphere),
        depthAccum o d scene bounce rest ≤ 2 - bounce)
    ∧ (∀ (o d : Vector3D) (scene : List Sphere),
        raytraceDepth o d scene bounce ≤ 2 - bounce) := by
  intro n
  induction n with
  | zero =>
    intro bounce hb
    have h2 : ¬ bounce < 2 := by omega
    have hlight : ∀ (s : Sphere) (o d : Vector3D) (dist : ℚ) (scene : List Sphere),
        lightDepth s o d dist scene bounce ≤ 2 - bounce := by
      intro s o d dist scene
      rw [lightDepth, dif_neg h2]
      exact Nat.zero_le _
    have haccum : ∀ (o d : Vector3D) (scene rest : List Sphere),
        depthAccum o d scene bounce rest ≤ 2 - bounce := by
      intro o d scene rest
      induction rest with
      | nil => rw [depthAccum]; exact Nat.zero_le _
      | cons sphere rest2 ihr =>
        rw [depthAccum]
        exact max_le (hlight sphere o d _ scene) ihr
    refine ⟨hlight, haccum, ?_⟩
    intro o d scene
    rw [raytraceDepth]
    split
    · exact Nat.zero_le _
    · exact haccum o d scene scene
  | succ nn ih =>
    intro bounce hb
    have hlight : ∀ (s : Sphere) (o d : Vector3D) (dist : ℚ) (scene : List Sphere),
        lightDepth s o d dist scene bounce ≤ 2 - bounce := by
      intro s o d dist scene
      by_cases h2 : bounce < 2
      · rw [lightDepth, dif_pos h2]
        have := (ih (bounce + 1) (by omega)).2.2 (s.nudgedPoint o d dist)
          (s.reflectedDir o d dist) scene
        omega
      · rw [lightDepth, dif_neg h2]
        exact Nat.zero_le _
    have haccum : ∀ (o d : Vector3D) (scene rest : List Sphere),
        depthAccum o d scene bounce rest ≤ 2 - bounce := by
      intro o d scene rest
      induction rest with
      | nil => rw [depthAccum]; exact Nat.zero_le _
      | cons sphere rest2 ihr =>
        rw [depthAccum]
        exact max_le (hlight sphere o d _ scene) ihr
    refine ⟨hlight, haccum, ?_⟩
    intro o d scene
    rw [raytraceDepth]
    split
    · exact Nat.zero_le _
    · exact haccum o d scene scene

theorem raytraceAccum_spec (o d : Vector3D) (scene : List Sphere) (nearest : ℚ) (bounce : ℕ) :
    ∀ (rest : List Sphere) (i : ℕ) (color v : Vector3D),
      raytraceAccum o d scene nearest bounce color rest i = some v →
      ∃ addends : List Vector3D, addends.length = rest.length
        ∧ v = addends.foldl (· + ·) color
        ∧ ∀ (j : ℕ) (hj : j < rest.length),
            ((rest.get ⟨j, hj⟩).intersect o d ≠ nearest ∨ nearest = FAR_AWAY) →
            addends.getD j ⟨0, 0, 0⟩ = (⟨0, 0, 0⟩ : Vector3D) := by
  intro rest
  induction rest with
  | nil =>
    intro i color v hv
    rw [raytraceAccum] at hv
    refine ⟨[], rfl, ?_, ?_⟩
    · simpa using (Option.some_inj.mp hv).symm
    · intro j hj
      exact absurd hj (by simp)
  | cons sphere rest2 ih =>
    intro i color v hv
    rw [raytraceAccum] at hv
    cases hl : Sphere.light sphere i o d (sphere.intersect o d) scene bounce with
    | none => rw [hl] at hv; simp at hv
    | some c =>
      rw [hl, Option.some_bind] at hv
      obtain ⟨adds, hlen, hfold, hzero⟩ := ih (i + 1) _ v hv
      refine ⟨(c.mul (propQ (nearest ≠ FAR_AWAY))).mul
          (propQ (sphere.intersect o d = nearest)) :: adds, by simp [hlen], hfold, ?_⟩
      intro j hj hcond
      cases j with
      | zero =>
        simp only [List.getD_cons_zero]
        rcases hcond with hcond | hcond
        · have h0 : ¬(sphere.intersect o d = nearest) := hcond
          rw [propQ_of_false h0, Vector3D.mul_zero_eq]
        · have h0 : ¬(nearest ≠ FAR_AWAY) := by simp [hcond]
          rw [propQ_of_false h0, Vector3D.mul_zero_eq, Vector3D.zero_mul_eq]
      | succ j2 =>
        simp only [List.getD_cons_succ]
        exact hzero j2 (by simpa using hj) (by simpa using hcond)

theorem light_y_lower (s : Sphere) (idx : ℕ) (o d : Vector3D) (dist : ℚ)
    (scene : List Sphere) (bounce : ℕ) (c : Vector3D)
    (hb : ¬bounce < 2) (hdc : 0 ≤ s.diffuse_color.y)
    (hc : Sphere.light s idx o d dist scene bounce = some c) :
    (1 / 20 : ℚ) ≤ c.y := by
  cases hmask : s.litMask idx o d dist scene with
  | none =>
    rw [Sphere.light, hmask] at hc
    simp at hc
  | some b =>
    rw [Sphere.light, hmask] at hc
    simp only [Option.some_bind] at hc
    rw [dif_neg hb] at hc
    have hy := congrArg Vector3D.y (Option.some_inj.mp hc)
    simp only [Vector3D.add_def, Vector3D.mul, ambientColor,
      Sphere.get_diffuse_color] at hy
    rw [← Vector3D.add_def] at hy
    norm_num at hy
    have hL : (0 : ℚ) ≤ max ((s.normalAt o d dist).dot (toLightDir (rayPoint o d dist))) 0 :=
      le_max_right _ _
    have hP : (0 : ℚ) ≤ min (max ((s.normalAt o d dist).dot
        ((toLightDir (rayPoint o d dist)
          + (CameraPosition - rayPoint o d dist).norm).norm)) 0) 1 ^ (50 : ℕ) :=
      pow_nonneg (le_min (le_max_right _ _) zero_le_one) 50
    have hbool : (0 : ℚ) ≤ boolQ b := by cases b <;> norm_num [boolQ]
    nlinarith [mul_nonneg (mul_nonneg hdc hL) hbool, mul_nonneg hP hbool, hy]

/-- C9: `normalize` divides by the square root of the squared norm with a
divisor of 1 substituted when the computed magnitude is exactly 0; hence the
zero vector normalizes to itself without any division error, and (when the
square root is exact) any nonzero vector normalizes to a vector of squared
magnitude 1. -/
theorem C9_normalize :
    (∀ v : Vector3D, ratSqrt v.abs = 0 → v.norm = v)
    ∧ (Vector3D.norm ⟨0, 0, 0⟩ = (⟨0, 0, 0⟩ : Vector3D))
    ∧ (∀ v : Vector3D, ratSqrt v.abs ^ 2 = v.abs → v.abs ≠ 0 → (v.norm).abs = 1) := by
  refine ⟨?_, by decide, ?_⟩
  · intro v h
    rw [Vector3D.norm]
    simp only [h, if_pos rfl]
    norm_num [Vector3D.mul_one_eq]
  · intro v h2 h1
    have hmag : ratSqrt v.abs ≠ 0 := by
      intro h0
      rw [h0] at h2
      simp only [ne_eq] at h1
      exact h1 (by simpa using h2.symm)
    rw [Vector3D.norm]
    simp only [if_neg hmag]
    rw [Vector3D.abs_mul_eq, div_pow, one_pow, h2]
    rw [one_div, mul_inv_cancel₀ h1]

/-- C9 witness: the zero vector maps to itself, and the vector (3,0,4) of
squared norm 25 normalizes to squared magnitude 1. -/
theorem C9_normalize_witness :
    Vector3D.norm ⟨0, 0, 0⟩ = (⟨0, 0, 0⟩ : Vector3D)
    ∧ Vector3D.abs (Vector3D.norm ⟨3, 0, 4⟩) = 1 :=
  ⟨C9_normalize.2.1, C9_normalize.2.2 ⟨3, 0, 4⟩ (by decide) (by decide)⟩

/-- C4: `intersect` returns the sentinel `FAR_AWAY` unless `disc > 0` and the
selected root is positive; a ray whose squared perpendicular offset from the
center exceeds the squared radius misses; `disc = 0` (tangency or origin
exactly on the surface) is a miss by the strict inequality. -/
theorem C4_intersect_sentinel :
    (∀ (s : Sphere) (o d : Vector3D),
        ¬(0 < s.disc o d ∧ 0 < s.hsel o d) → s.intersect o d = FAR_AWAY)
    ∧ (∀ (s : Sphere) (o d : Vector3D), d.dot d = 1 →
        s.radius * s.radius < (o - s.center).abs - d.dot (o - s.center) ^ 2 →
        s.intersect o d = FAR_AWAY)
    ∧ (∀ (s : Sphere) (o d : Vector3D), s.disc o d = 0 → s.intersect o d = FAR_AWAY) := by
  have key : ∀ (s : Sphere) (o d : Vector3D), ¬(0 < s.disc o d ∧ 0 < s.hsel o d) →
      s.intersect o d = FAR_AWAY := by
    intro s o d h
    rw [Sphere.intersect, if_neg h]
  refine ⟨key, ?_, ?_⟩
  · intro s o d hd hperp
    refine key s o d ?_
    rintro ⟨hdisc, -⟩
    have hdisc_eq : s.disc o d = 4 * d.dot (o - s.center) ^ 2
        - 4 * ((o - s.center).abs - s.radius * s.radius) := by
      simp only [Sphere.disc, Vector3D.dot, Vector3D.abs, Vector3D.sub_def]
      ring
    rw [hdisc_eq] at hdisc
    linarith
  · intro s o d h0
    refine key s o d ?_
    rintro ⟨hdisc, -⟩
    rw [h0] at hdisc
    exact lt_irrefl 0 hdisc

/-- C4 witness: a ray pointing away from the sphere, a ray passing beside the
sphere, and a tangent ray all get the sentinel. -/
theorem C4_intersect_sentinel_witness :
    Sphere.intersect ⟨⟨0, 0, 3⟩, 1, ⟨1, 0, 0⟩, 0, false⟩ ⟨0, 0, 0⟩ ⟨0, 0, -1⟩ = FAR_AWAY
    ∧ Sphere.intersect ⟨⟨3, 0, 3⟩, 1, ⟨1, 0, 0⟩, 0, false⟩ ⟨0, 0, 0⟩ ⟨0, 1, 0⟩ = FAR_AWAY
    ∧ Sphere.intersect ⟨⟨0, 1, 5⟩, 1, ⟨1, 0, 0⟩, 0, false⟩ ⟨0, 0, 0⟩ ⟨0, 0, 1⟩ = FAR_AWAY :=
  ⟨C4_intersect_sentinel.1 _ _ _ (by decide),
   C4_intersect_sentinel.2.1 _ _ _ (by decide) (by decide),
   C4_intersect_sentinel.2.2 _ _ _ (by decide)⟩

/-- C6: recursion is depth-bounded: a trace started at bounce 0 nests at most
2 levels of reflective recursion, and at bounce ≥ 2 the reflection step is not
taken at all; together with the totality of `raytrace` (a Lean function),
tracing always terminates. -/
theorem C6_bounded_recursion :
    (∀ (o d : Vector3D) (scene : List Sphere), raytraceDepth o d scene 0 ≤ 2)
    ∧ (∀ (s : Sphere) (o d : Vector3D) (dist : ℚ) (scene : List Sphere) (bounce : ℕ),
        2 ≤ bounce → lightDepth s o d dist scene bounce = 0) := by
  constructor
  · intro o d scene
    exact (depth_bound 2 0 le_rfl).2.2 o d scene
  · intro s o d dist scene bounce hb
    rw [lightDepth, dif_neg (by omega)]

/-- C6 witness: the depth bound at a concrete scene, and a concrete bounce-2
shading call taking no reflection step. -/
theorem C6_bounded_recursion_witness :
    raytraceDepth origin0 dirZ [matteSphere] 0 ≤ 2
    ∧ lightDepth matteSphere origin0 dirZ 2 [matteSphere] 2 = 0 :=
  ⟨C6_bounded_recursion.1 origin0 dirZ [matteSphere],
   C6_bounded_recursion.2 matteSphere origin0 dirZ 2 [matteSphere] 2 (by decide)⟩

/-- C10: `raytrace` on the empty scene fails (the reduction over an empty
distance list raises, modelled as `none`), and it succeeds on every non-empty
scene. -/
theorem C10_empty_scene :
    (∀ (o d : Vector3D) (bounce : ℕ), raytrace o d [] bounce = none)
    ∧ (∀ (o d : Vector3D) (scene : List Sphere) (bounce : ℕ), scene ≠ [] →
        ∃ c, raytrace o d scene bounce = some c) := by
  constructor
  · intro o d bounce
    rw [raytrace]
    rfl
  · intro o d scene bounce hne
    exact raytrace_total o d scene bounce hne

/-- C10 witness: a concrete one-sphere scene yields a color. -/
theorem C10_empty_scene_witness : (raytrace origin0 dirZ [matteSphere] 0).isSome := by
  obtain ⟨c, hc⟩ := C10_empty_scene.2 origin0 dirZ [matteSphere] 0 (by decide)
  rw [hc]
  rfl

/-- C2 (code bug): at the on-sphere point (699993/25, -200023/50, 0) of the
scene's checkered floor, the checker parities of the two coordinates differ,
so the `CheckeredSphere.diffuse_color` method body yields black; but the
shading code's `get_diffuse_color` returns the constant base color 0.75 gray,
because in the Python source the instance attribute `diffuse_color` assigned
in `Sphere.__init__` shadows the method, which is never called. -/
theorem C2_checker_dead_code :
    Sphere.get_diffuse_color checkeredFloor ⟨699993/25, -200023/50, 0⟩
        = (⟨0.75, 0.75, 0.75⟩ : Vector3D)
    ∧ CheckeredSphere.diffuse_color checkeredFloor ⟨699993/25, -200023/50, 0⟩
        = (⟨0, 0, 0⟩ : Vector3D)
    ∧ (⟨0.75, 0.75, 0.75⟩ : Vector3D) ≠ (⟨0, 0, 0⟩ : Vector3D)
    ∧ (checkeredFloor.center - (⟨699993/25, -200023/50, 0⟩ : Vector3D)).abs
        = checkeredFloor.radius ^ 2 :=
  ⟨by decide, by decide, by decide, by decide⟩

/-- C1: for every ray and non-empty scene, the resolver's nearest distance is
the pairwise minimum of all spheres' intersect distances, hence ≤ each of
them, and the traced color is the sum of per-sphere contributions in which
every sphere whose own distance differs from the minimum, or for which the
minimum is the no-hit sentinel, contributes the zero vector. -/
theorem C1_nearest_hit (o d : Vector3D) (scene : List Sphere) (bounce : ℕ)
    (hne : scene ≠ []) :
    ∃ nearest, reduceMin (scene.map fun s => s.intersect o d) = some nearest
      ∧ (∀ s ∈ scene, nearest ≤ s.intersect o d)
      ∧ ∃ contribs : List Vector3D, contribs.length = scene.length
          ∧ raytrace o d scene bounce = some (contribs.foldl (· + ·) ⟨0, 0, 0⟩)
          ∧ ∀ (j : ℕ) (hj : j < scene.length),
              ((scene.get ⟨j, hj⟩).intersect o d ≠ nearest ∨ nearest = FAR_AWAY) →
              contribs.getD j ⟨0, 0, 0⟩ = (⟨0, 0, 0⟩ : Vector3D) := by
  have hne2 : scene.map (fun s => s.intersect o d) ≠ [] := by
    intro h
    exact hne (List.map_eq_nil_iff.mp h)
  obtain ⟨m, hm⟩ := reduceMin_isSome hne2
  refine ⟨m, hm, ?_, ?_⟩
  · intro s hs
    exact reduceMin_le hm _ (List.mem_map_of_mem _ hs)
  · obtain ⟨c, hc⟩ := (accumAndRay_of_light (tracer_total (2 - bounce) bounce le_rfl)).1
      o d scene m ⟨0, 0, 0⟩ scene 0 hne (by omega)
    obtain ⟨adds, hlen, hfold, hzero⟩ := raytraceAccum_spec o d scene m bounce scene 0 _ c hc
    refine ⟨adds, hlen, ?_, hzero⟩
    rw [raytrace, hm]
    simp only [Option.some_bind]
    rw [hc, hfold]

/-- C1 witness: the one-sphere scene at the concrete ray. -/
theorem C1_nearest_hit_witness :
    ∃ nearest, reduceMin ([matteSphere].map fun s => s.intersect origin0 dirZ) = some nearest
      ∧ (∀ s ∈ [matteSphere], nearest ≤ s.intersect origin0 dirZ)
      ∧ ∃ contribs : List Vector3D, contribs.length = [matteSphere].length
          ∧ raytrace origin0 dirZ [matteSphere] 0
              = some (contribs.foldl (· + ·) ⟨0, 0, 0⟩)
          ∧ ∀ (j : ℕ) (hj : j < [matteSphere].length),
              (([matteSphere].get ⟨j, hj⟩).intersect origin0 dirZ ≠ nearest
                ∨ nearest = FAR_AWAY) →
              contribs.getD j ⟨0, 0, 0⟩ = (⟨0, 0, 0⟩ : Vector3D) :=
  C1_nearest_hit origin0 dirZ [matteSphere] 0 (by decide)

/-- C3: the lit mask equals the comparison of this sphere's own shadow-ray
intersect distance, located via its scene index, against the scene-wide
nearest shadow distance for the ray cast from the nudged point toward the
light; when the mask is false, the diffuse and specular terms vanish and the
shading result is the 0.05 gray ambient term plus (only below bounce 2) the
reflection term. -/
theorem C3_shadow_mask (s : Sphere) (idx : ℕ) (o d : Vector3D) (distance : ℚ)
    (scene : List Sphere) (bounce : ℕ) (hidx : scene[idx]? = some s) :
    (s.litMask idx o d distance scene
      = (reduceMin (s.shadowDistances o d distance scene)).map fun n =>
          decide (s.intersect (s.nudgedPoint o d distance)
            (toLightDir (rayPoint o d distance)) = n))
    ∧ (s.litMask idx o d distance scene = some false →
        ∃ reflC, Sphere.light s idx o d distance scene bounce
            = some (ambientColor + reflC)
          ∧ (2 ≤ bounce → reflC = (⟨0, 0, 0⟩ : Vector3D))) := by
  constructor
  · have hsd : (s.shadowDistances o d distance scene)[idx]?
        = some (s.intersect (s.nudgedPoint o d distance)
            (toLightDir (rayPoint o d distance))) := by
      rw [Sphere.shadowDistances, List.getElem?_map, hidx, Option.map_some']
    rw [Sphere.litMask, hsd]
    cases hred : reduceMin (s.shadowDistances o d distance scene) with
    | none => rfl
    | some n => rfl
  · intro hmask
    have hne := litMask_some_ne_nil hmask
    rw [Sphere.light, hmask]
    simp only [Option.some_bind, boolQ, if_neg Bool.false_ne_true,
      Bool.false_eq_true, if_false, Vector3D.mul_zero_eq, Vector3D.add_zero_eq]
    by_cases h2 : bounce < 2
    · obtain ⟨r, hr⟩ := raytrace_total (s.nudgedPoint o d distance)
        (s.reflectedDir o d distance) scene (bounce + 1) hne
      rw [dif_pos h2, hr, Option.map_some']
      exact ⟨r.mul s.mirror, rfl, fun hb => absurd h2 (by omega)⟩
    · rw [dif_neg h2]
      exact ⟨⟨0, 0, 0⟩, by rw [Vector3D.add_zero_eq], fun _ => rfl⟩

/-- C3 witness: concrete instantiation at the one-sphere scene. -/
theorem C3_shadow_mask_witness :
    (matteSphere.litMask 0 origin0 dirZ 2 [matteSphere]
      = (reduceMin (matteSphere.shadowDistances origin0 dirZ 2 [matteSphere])).map fun n =>
          decide (matteSphere.intersect (matteSphere.nudgedPoint origin0 dirZ 2)
            (toLightDir (rayPoint origin0 dirZ 2)) = n))
    ∧ (matteSphere.litMask 0 origin0 dirZ 2 [matteSphere] = some false →
        ∃ reflC, Sphere.light matteSphere 0 origin0 dirZ 2 [matteSphere] 0
            = some (ambientColor + reflC)
          ∧ (2 ≤ 0 → reflC = (⟨0, 0, 0⟩ : Vector3D))) :=
  C3_shadow_mask matteSphere 0 origin0 dirZ 2 [matteSphere] 0 rfl

/-- C7 counterexample: `matteSphere` has mirror coefficient 0, yet its shading
at bounce 0 still performs a recursive raytrace call (the reflection recursion
depth is positive); the recursion is not skipped for mirror-0 spheres. -/
theorem C7_mirror_zero_cex :
    matteSphere.mirror = 0
    ∧ 0 < lightDepth matteSphere origin0 dirZ 2 [matteSphere] 0 := by
  refine ⟨rfl, ?_⟩
  rw [lightDepth, dif_pos (by omega)]
  omega

/-- C7 amended: a mirror-0 sphere's shading output equals the reflection-free
shading (the recursive trace's result is multiplied by zero, so the sphere
contributes zero reflective color), but the recursive call is still made
whenever bounce < 2. -/
theorem C7_mirror_zero (s : Sphere) (idx : ℕ) (o d : Vector3D) (distance : ℚ)
    (scene : List Sphere) (bounce : ℕ) (hm : s.mirror = 0) :
    Sphere.light s idx o d distance scene bounce
      = Sphere.lightNoReflect s idx o d distance scene bounce
    ∧ (bounce < 2 → 0 < lightDepth s o d distance scene bounce) := by
  constructor
  · cases hmask : s.litMask idx o d distance scene with
    | none => rw [Sphere.light, Sphere.lightNoReflect, hmask]; rfl
    | some b =>
      have hne := litMask_some_ne_nil hmask
      rw [Sphere.light, Sphere.lightNoReflect, hmask]
      simp only [Option.some_bind]
      by_cases h2 : bounce < 2
      · obtain ⟨r, hr⟩ := raytrace_total (s.nudgedPoint o d distance)
          (s.reflectedDir o d distance) scene (bounce + 1) hne
        rw [dif_pos h2, hr, Option.map_some', hm, Vector3D.mul_zero_eq,
          Vector3D.add_zero_eq]
      · rw [dif_neg h2]
  · intro h2
    rw [lightDepth, dif_pos h2]
    omega

/-- C7 witness: the amended statement at the concrete mirror-0 sphere. -/
theorem C7_mirror_zero_witness :
    (Sphere.light matteSphere 0 origin0 dirZ 2 [matteSphere] 0
      = Sphere.lightNoReflect matteSphere 0 origin0 dirZ 2 [matteSphere] 0)
    ∧ (0 < 2 → 0 < lightDepth matteSphere origin0 dirZ 2 [matteSphere] 0) :=
  C7_mirror_zero matteSphere 0 origin0 dirZ 2 [matteSphere] 0 rfl

/-- C5: for a ray whose unit direction points exactly at a sphere's center
from an origin outside it (center − origin = direction·k with k > radius),
the quadratic selects the nearer positive root and `intersect` returns the
origin-to-center distance minus the radius, provided the square root of the
discriminant 4·radius² is exact. -/
theorem C5_aimed_at_center (s : Sphere) (o d : Vector3D) (k : ℚ)
    (hd : d.dot d = 1) (hk : s.center - o = d.mul k)
    (hr : 0 < s.radius) (hout : s.radius < k)
    (hsq : ratSqrt (4 * s.radius ^ 2) = 2 * s.radius) :
    (s.center - o).abs = k ^ 2 ∧ s.intersect o d = k - s.radius := by
  simp only [Vector3D.sub_def, Vector3D.mul, Vector3D.mk.injEq] at hk
  obtain ⟨hk1, hk2, hk3⟩ := hk
  simp only [Vector3D.dot] at hd
  have hb : 2 * (d.x * (o.x - s.center.x) + d.y * (o.y - s.center.y)
      + d.z * (o.z - s.center.z)) = -(2 * k) := by
    linear_combination (-2 * d.x) * hk1 + (-2 * d.y) * hk2 + (-2 * d.z) * hk3
      + (-2 * k) * hd
  have habs2 : (s.center.x - o.x) * (s.center.x - o.x)
      + (s.center.y - o.y) * (s.center.y - o.y)
      + (s.center.z - o.z) * (s.center.z - o.z) = k ^ 2 := by
    linear_combination (s.center.x - o.x + d.x * k) * hk1
      + (s.center.y - o.y + d.y * k) * hk2
      + (s.center.z - o.z + d.z * k) * hk3 + k ^ 2 * hd
  have hdisc : s.disc o d = 4 * s.radius ^ 2 := by
    simp only [Sphere.disc, Vector3D.dot, Vector3D.abs, Vector3D.sub_def]
    linear_combination (2 * (d.x * (o.x - s.center.x) + d.y * (o.y - s.center.y)
        + d.z * (o.z - s.center.z)) - 2 * k) * hb + (-4 : ℚ) * habs2
  have hsel2 : s.hsel o d = k - s.radius := by
    simp only [Sphere.hsel, Vector3D.dot, Vector3D.sub_def, hdisc]
    rw [max_eq_right (by positivity), hsq, hb]
    rw [if_pos ⟨by linarith, by linarith⟩]
    ring
  refine ⟨?_, ?_⟩
  · simp only [Vector3D.abs, Vector3D.dot, Vector3D.sub_def]
    exact habs2
  · rw [Sphere.intersect,
      if_pos ⟨by rw [hdisc]; nlinarith [mul_pos hr hr], by rw [hsel2]; linarith⟩]
    exact hsel2

/-- C5 witness: the unit sphere centered at (0,0,5), hit from the origin along
the z axis: distance 5 to the center, intersect distance 4. -/
theorem C5_aimed_at_center_witness :
    (Vector3D.mk 0 0 5 - origin0).abs = 5 ^ 2
    ∧ Sphere.intersect ⟨⟨0, 0, 5⟩, 1, ⟨1, 0, 0⟩, 0, false⟩ origin0 dirZ = 5 - 1 :=
  C5_aimed_at_center ⟨⟨0, 0, 5⟩, 1, ⟨1, 0, 0⟩, 0, false⟩ origin0 dirZ 5
    (by decide) (by decide) (by decide) (by decide) (by decide)

/-- C8 amended: on an exact tie of nearest distances the resolver does not let
the later sphere override the earlier one; both tying spheres' full shading
contributions are added to the output color. -/
theorem C8_tie_accumulates (o d : Vector3D) (s1 s2 : Sphere) (bounce : ℕ)
    (htie : s1.intersect o d = s2.intersect o d)
    (hfar : s2.intersect o d ≠ FAR_AWAY) :
    ∃ c1 c2, Sphere.light s1 0 o d (s1.intersect o d) [s1, s2] bounce = some c1
      ∧ Sphere.light s2 1 o d (s2.intersect o d) [s1, s2] bounce = some c2
      ∧ raytrace o d [s1, s2] bounce = some (((⟨0, 0, 0⟩ : Vector3D) + c1) + c2) := by
  obtain ⟨c1, hc1⟩ := light_total s1 0 o d (s1.intersect o d) [s1, s2] bounce
    (by simp) (by simp)
  obtain ⟨c2, hc2⟩ := light_total s2 1 o d (s2.intersect o d) [s1, s2] bounce
    (by simp) (by simp)
  refine ⟨c1, c2, hc1, hc2, ?_⟩
  have hmap : [s1, s2].map (fun s => s.intersect o d)
      = [s1.intersect o d, s2.intersect o d] := rfl
  have hred : reduceMin [s1.intersect o d, s2.intersect o d]
      = some (s2.intersect o d) := by
    simp only [reduceMin, List.foldl, htie, min_self]
  rw [raytrace, hmap, hred, Option.some_bind]
  rw [raytraceAccum, hc1, Option.some_bind]
  simp only [Nat.reduceAdd]
  rw [raytraceAccum, hc2, Option.some_bind]
  rw [raytraceAccum]
  simp only [propQ_of_true hfar, propQ_of_true htie,
    propQ_of_true (Eq.refl (s2.intersect o d)), propQ_of_true trivial,
    Vector3D.mul_one_eq]

/-- C8 witness for the amended theorem: two identical concrete spheres tie. -/
theorem C8_tie_accumulates_witness :
    ∃ c1 c2, Sphere.light matteSphere 0 origin0 dirZ (matteSphere.intersect origin0 dirZ)
        [matteSphere, matteSphere] 2 = some c1
      ∧ Sphere.light matteSphere 1 origin0 dirZ (matteSphere.intersect origin0 dirZ)
          [matteSphere, matteSphere] 2 = some c2
      ∧ raytrace origin0 dirZ [matteSphere, matteSphere] 2
          = some (((⟨0, 0, 0⟩ : Vector3D) + c1) + c2) :=
  C8_tie_accumulates origin0 dirZ matteSphere matteSphere 2 rfl (by decide)

/-- C8 counterexample: two identical spheres tie for the nearest distance; the
resolver's output is the sum of both contributions (in particular the 0.05
ambient term enters twice), not the later sphere's contribution alone. -/
theorem C8_tie_override_cex :
    raytrace origin0 dirZ [matteSphere, matteSphere] 2
      ≠ Sphere.light matteSphere 1 origin0 dirZ 2 [matteSphere, matteSphere] 2 := by
  have h0 : matteSphere.intersect origin0 dirZ = 2 := by decide
  have hm0 : matteSphere.litMask 0 origin0 dirZ 2 [matteSphere, matteSphere]
      = some true := by decide
  have hm1 : matteSphere.litMask 1 origin0 dirZ 2 [matteSphere, matteSphere]
      = some true := by decide
  have hlight_eq : Sphere.light matteSphere 0 origin0 dirZ 2 [matteSphere, matteSphere] 2
      = Sphere.light matteSphere 1 origin0 dirZ 2 [matteSphere, matteSphere] 2 := by
    rw [Sphere.light, Sphere.light, hm0, hm1]
  obtain ⟨c, hc⟩ := light_total matteSphere 1 origin0 dirZ 2 [matteSphere, matteSphere] 2
    (by decide) (by decide)
  have hc0 : Sphere.light matteSphere 0 origin0 dirZ 2 [matteSphere, matteSphere] 2
      = some c := hlight_eq ▸ hc
  have hmap : [matteSphere, matteSphere].map (fun s => s.intersect origin0 dirZ)
      = [2, 2] := by
    rw [List.map_cons, List.map_cons, List.map_nil, h0]
  have hred : reduceMin [(2 : ℚ), 2] = some 2 := by decide
  have hp1 : propQ ((2 : ℚ) ≠ FAR_AWAY) = 1 := propQ_of_true (by decide)
  have hp2 : propQ ((2 : ℚ) = 2) = 1 := propQ_of_true rfl
  have htrace : raytrace origin0 dirZ [matteSphere, matteSphere] 2
      = some (((⟨0, 0, 0⟩ : Vector3D) + c) + c) := by
    rw [raytrace, hmap, hred, Option.some_bind]
    rw [raytraceAccum, h0, hc0, Option.some_bind]
    simp only [Nat.reduceAdd]
    rw [raytraceAccum, h0, hc, Option.some_bind]
    rw [raytraceAccum]
    simp only [hp1, hp2, propQ_of_true trivial, Vector3D.mul_one_eq]
  rw [htrace, hc]
  intro heq
  have heq2 : ((⟨0, 0, 0⟩ : Vector3D) + c) + c = c := Option.some_inj.mp heq
  rw [Vector3D.zero_add_eq] at heq2
  have hy0 : c.y = 0 := by
    have hcomp := congrArg Vector3D.y heq2
    simp only [Vector3D.add_def] at hcomp
    linarith
  have hy1 : (1 / 20 : ℚ) ≤ c.y :=
    light_y_lower matteSphere 1 origin0 dirZ 2 [matteSphere, matteSphere] 2 c
      (by omega) (by decide) hc
  linarith
